import Mathlib

/-!
Verification of the weatherstrip program (src/weatherstrip.go).

The program merges two weather data sources into an hour-keyed timeline and
renders it as a pixel grid:
  - loadPastTelemetry reads observed samples (snow depth, temperature, hourly
    precipitation) and keys each record at the sample timestamp minus one hour;
  - loadFuture reads three forecast series (snowFallAmount, snowLevel,
    temperature) given as (start, ISO-duration, value) triples and spreads them
    over hourly sub-slots;
  - buildImage walks the merged timeline hour by hour, maintaining a running
    accumulation total with a daily reset at 16:00, and paints pixel columns.

Embedding conventions:
  - instants are modelled as integers counting seconds of fixed-offset local
    time (the program pins one location, America/Los_Angeles; daylight-saving
    transitions are outside the scope of every claim proved here);
  - Go float64 values are modelled as rationals;
  - the Go map is modelled as a function from instants to optional records,
    which structurally guarantees at most one record per key, exactly as a Go
    map does;
  - Go functions that can return an error (or panic on a malformed document)
    return the mutated map together with an optional error string, because Go
    mutates the map in place before reporting the error;
  - the fixed-layout time.ParseInLocation call and the PT(\d+)H regular
    expression of the source are implemented directly on character lists.
-/

/-- Grid constants of the source. -/
def gridWidth : ℤ := 64

/-- Number of logical rows of the grid. -/
def gridHeight : ℤ := 16

/-- Pixel size of one logical cell. -/
def cellSize : ℤ := 16

/-- Pixel gutter between cells. -/
def cellSpacing : ℤ := 1

/-- Snow-line elevation constant of the source (metres). -/
def snowlevel : ℚ := 1490

/-- Cold threshold for the temperature strip. -/
def coldTemp : ℚ := 29

/-- Hot threshold for the temperature strip. -/
def hotTemp : ℚ := 32

/-- Celsius to Fahrenheit, as in the source: c*9/5 + 32. -/
def toFahrenheit (c : ℚ) : ℚ := c * 9 / 5 + 32

/-- Millimetres to inches, as in the source: mm / 25.4. -/
def toInch (mm : ℚ) : ℚ := mm / (254 / 10)

/-- One per-hour record of the merged timeline, mirroring HourForecast. -/
structure HourForecast where
  Hour : ℤ
  PredictedSnow : ℚ
  PredictedSnowLevel : ℚ
  PredictedTemp : ℚ
  ActualSnow : ℚ
  ActualTemp : ℚ
  ActualPrecip : ℚ
  deriving DecidableEq

/-- The merged timeline: the Go map from hour instants to records. -/
def Timeline : Type := ℤ → Option HourForecast

/-- The empty map. -/
def emptyTimeline : Timeline := fun _ => none

/-- Store a record under a key, as Go map assignment does. -/
def updateT (m : Timeline) (k : ℤ) (r : HourForecast) : Timeline :=
  fun t => if t = k then some r else m t

/-- Number of seconds in an hour; Go durations are handled in these units. -/
def hourSec : ℤ := 3600

/-- Local hour of day of an instant, modelling Go t.Hour() under the fixed
local offset convention of this embedding. -/
def hourOf (t : ℤ) : ℤ := (t / 3600) % 24

/-- Decimal value of a digit character. -/
def digitVal (c : Char) : ℕ := c.toNat - 48

/-- Read exactly two digit characters, as the Go time layouts 01, 02, 15,
04 and 05 do. -/
def parse2 : List Char → Option (ℕ × List Char)
  | c1 :: c2 :: rest =>
      if c1.isDigit ∧ c2.isDigit then
        some (digitVal c1 * 10 + digitVal c2, rest)
      else none
  | _ => none

/-- Read exactly four digit characters, as the Go time layout 2006 does. -/
def parse4 : List Char → Option (ℕ × List Char)
  | c1 :: c2 :: c3 :: c4 :: rest =>
      if c1.isDigit ∧ c2.isDigit ∧ c3.isDigit ∧ c4.isDigit then
        some (digitVal c1 * 1000 + digitVal c2 * 100 + digitVal c3 * 10 +
          digitVal c4, rest)
      else none
  | _ => none

/-- Require one literal character. -/
def expectChar (c : Char) : List Char → Option (List Char)
  | c1 :: rest => if c1 = c then some rest else none
  | [] => none

/-- Leap year test of the Gregorian calendar, as Go isLeap. -/
def isLeap (y : ℕ) : Bool := decide (y % 4 = 0 ∧ (y % 100 ≠ 0 ∨ y % 400 = 0))

/-- Number of days of a month, for the range validation Go Parse performs. -/
def daysInMonth (y m : ℕ) : ℕ :=
  if m = 1 then 31
  else if m = 2 then (if isLeap y then 29 else 28)
  else if m = 3 then 31
  else if m = 4 then 30
  else if m = 5 then 31
  else if m = 6 then 30
  else if m = 7 then 31
  else if m = 8 then 31
  else if m = 9 then 30
  else if m = 10 then 31
  else if m = 11 then 30
  else 31

/-- Days since 1970-01-01 of a civil date (the standard era-based civil
calendar computation); used to linearise parsed timestamps. -/
def daysFromCivil (y m d : ℤ) : ℤ :=
  let yy := if m ≤ 2 then y - 1 else y
  let era := Int.fdiv yy 400
  let yoe := yy - era * 400
  let doy := (153 * (if 2 < m then m - 3 else m + 9) + 2) / 5 + d - 1
  let doe := yoe * 365 + yoe / 4 - yoe / 100 + doy
  era * 146097 + doe - 719468

/-- Parse a timestamp against the fixed Go layout 2006-01-02T15:04:05+00:00,
as time.ParseInLocation in loadFuture does.  The +00:00 tail of that layout is
literal text to the Go time package, so the string must end with it exactly,
and the whole input must be consumed.  Field ranges are validated as Go Parse
does.  The result is the instant in seconds. -/
def parseGoTime (s : String) : Option ℤ :=
  match parse4 s.toList with
  | none => none
  | some (y, r1) =>
    match expectChar '-' r1 with
    | none => none
    | some r2 =>
      match parse2 r2 with
      | none => none
      | some (mo, r3) =>
        match expectChar '-' r3 with
        | none => none
        | some r4 =>
          match parse2 r4 with
          | none => none
          | some (d, r5) =>
            match expectChar 'T' r5 with
            | none => none
            | some r6 =>
              match parse2 r6 with
              | none => none
              | some (hh, r7) =>
                match expectChar ':' r7 with
                | none => none
                | some r8 =>
                  match parse2 r8 with
                  | none => none
                  | some (mi, r9) =>
                    match expectChar ':' r9 with
                    | none => none
                    | some r10 =>
                      match parse2 r10 with
                      | none => none
                      | some (ss, r11) =>
                        if r11 = ['+', '0', '0', ':', '0', '0'] ∧
                            1 ≤ mo ∧ mo ≤ 12 ∧
                            1 ≤ d ∧ d ≤ daysInMonth y mo ∧
                            hh ≤ 23 ∧ mi ≤ 59 ∧ ss ≤ 59 then
                          some (daysFromCivil (y : ℤ) (mo : ℤ) (d : ℤ) * 86400 +
                            (hh : ℤ) * 3600 + (mi : ℤ) * 60 + (ss : ℤ))
                        else none

/-- Everything before the first slash. -/
def beforeSlash : List Char → List Char
  | [] => []
  | '/' :: _ => []
  | c :: cs => c :: beforeSlash cs

/-- The segment between the first and second slash, when a first slash
exists. -/
def secondPart : List Char → Option (List Char)
  | [] => none
  | '/' :: cs => some (beforeSlash cs)
  | _ :: cs => secondPart cs

/-- Model of parts[0] and parts[1] of strings.Split(s, "/") in loadFuture:
the head segment, and the second segment when the string has a slash. -/
def splitSlash (s : String) : String × Option String :=
  (String.mk (beforeSlash s.toList), (secondPart s.toList).map String.mk)

/-- Take the maximal leading digit run. -/
def takeDigits : List Char → List Char × List Char
  | [] => ([], [])
  | c :: cs =>
      if c.isDigit then
        let p := takeDigits cs
        (c :: p.1, p.2)
      else ([], c :: cs)

/-- First match of the unanchored regular expression PT(\d+)H, returning the
captured digit run: the regular expression matches at a position exactly when
the characters P and T are followed by a maximal nonempty digit run followed
by H, and the engine advances one character after a failed position. -/
def findPTH : List Char → Option (List Char)
  | 'P' :: 'T' :: cs =>
      (match takeDigits cs with
       | (d :: ds, 'H' :: _) => some (d :: ds)
       | _ => findPTH cs)
  | _ :: cs => findPTH cs
  | [] => none

/-- Digit run to number, with the int64 overflow check strconv.Atoi
performs. -/
def atoiGo (ds : List Char) : Option ℕ :=
  let n := ds.foldl (fun a c => a * 10 + digitVal c) 0
  if n ≤ 9223372036854775807 then some n else none


/-- Error text used when a document has no stations. -/
def errNoStations : String := "no stations data"

/-- Error text standing for the Go time parse error. -/
def errBadTime : String := "cannot parse time"

/-- Error text standing for a Go index-out-of-range panic. -/
def errIndex : String := "index out of range"

/-- Error text standing for the strconv.Atoi range error. -/
def errRange : String := "value out of range"

/-- Observation arrays of the first station of the telemetry document,
mirroring the decoded TelemetryData struct (the snow_depth_24h array is
decoded by the source but never read). -/
structure Observations where
  dateTime : List ℤ
  snow : List ℚ
  temp : List ℚ
  hourPrecip : List ℚ
  deriving DecidableEq

/-- The decoded telemetry document: the list of stations. -/
structure TelemetryDoc where
  stations : List Observations
  deriving DecidableEq

/-- Loop body of loadPastTelemetry: for each sample index build a record from
the parallel arrays, shift its hour back by one hour, and store it; Go panics
with an index error when a value array is shorter than the date array. -/
def teleLoop (m : Timeline) : List ℤ → List ℚ → List ℚ → List ℚ →
    Timeline × Option String
  | [], _, _, _ => (m, none)
  | ts :: tss, s :: ss, tp :: tps, pr :: prs =>
      teleLoop (updateT m (ts - 3600)
        { Hour := ts - 3600, PredictedSnow := 0, PredictedSnowLevel := 0,
          PredictedTemp := 0, ActualSnow := s, ActualTemp := tp,
          ActualPrecip := pr }) tss ss tps prs
  | _ :: _, _, _, _ => (m, some errIndex)

/-- loadPastTelemetry of the source: reject a document with no stations, then
run the sample loop of the first station. -/
def loadPastTelemetry (m : Timeline) (d : TelemetryDoc) :
    Timeline × Option String :=
  match d.stations with
  | [] => (m, some errNoStations)
  | obs :: _ => teleLoop m obs.dateTime obs.snow obs.temp obs.hourPrecip

/-- One (validTime, value) entry of a forecast series. -/
structure FValue where
  time : String
  value : ℚ
  deriving DecidableEq

/-- The decoded forecast document: the three series read by loadFuture. -/
structure ForecastDoc where
  snowFallAmount : List FValue
  snowLevel : List FValue
  temperature : List FValue
  deriving DecidableEq

/-- One iteration of the snowFallAmount inner loop: at sub-slot t + h hours,
set only the PredictedSnow field of an existing record, inserting a fresh
record otherwise. -/
def snowSlot (t : ℤ) (value : ℚ) (m : Timeline) (h : ℕ) : Timeline :=
  let valueTime := t + 3600 * (h : ℤ)
  match m valueTime with
  | none => updateT m valueTime
      { Hour := valueTime, PredictedSnow := value, PredictedSnowLevel := 0,
        PredictedTemp := 0, ActualSnow := 0, ActualTemp := 0,
        ActualPrecip := 0 }
  | some present => updateT m valueTime
      { present with PredictedSnow := value }

/-- One iteration of the snowLevel inner loop: set only the
PredictedSnowLevel field at the sub-slot. -/
def levelSlot (t : ℤ) (v : ℚ) (m : Timeline) (h : ℕ) : Timeline :=
  let valueTime := t + 3600 * (h : ℤ)
  match m valueTime with
  | none => updateT m valueTime
      { Hour := valueTime, PredictedSnow := 0, PredictedSnowLevel := v,
        PredictedTemp := 0, ActualSnow := 0, ActualTemp := 0,
        ActualPrecip := 0 }
  | some present => updateT m valueTime
      { present with PredictedSnowLevel := v }

/-- One iteration of the temperature inner loop: set only the PredictedTemp
field at the sub-slot. -/
def tempSlot (t : ℤ) (v : ℚ) (m : Timeline) (h : ℕ) : Timeline :=
  let valueTime := t + 3600 * (h : ℤ)
  match m valueTime with
  | none => updateT m valueTime
      { Hour := valueTime, PredictedSnow := 0, PredictedSnowLevel := 0,
        PredictedTemp := v, ActualSnow := 0, ActualTemp := 0,
        ActualPrecip := 0 }
  | some present => updateT m valueTime
      { present with PredictedTemp := v }

/-- Inner loop of the snowFallAmount pass: spread inch/hours over the hourly
sub-slots t, t+1h, ..., t+(hours-1)h; the source computes the constant
value = inch/hours inside the loop. -/
def spreadSnow (m : Timeline) (t : ℤ) (inch : ℚ) (hours : ℕ) : Timeline :=
  (List.range hours).foldl (snowSlot t (inch / (hours : ℚ))) m

/-- Inner loop of the snowLevel pass: replicate the raw value over the
hourly sub-slots. -/
def spreadLevel (m : Timeline) (t : ℤ) (v : ℚ) (hours : ℕ) : Timeline :=
  (List.range hours).foldl (levelSlot t v) m

/-- Inner loop of the temperature pass: replicate the Fahrenheit value over
the hourly sub-slots. -/
def spreadTemp (m : Timeline) (t : ℤ) (v : ℚ) (hours : ℕ) : Timeline :=
  (List.range hours).foldl (tempSlot t v) m

/-- Shared head of each forecast triple: split the composite time key on the
slash, parse the timestamp (fatal on failure), look for the PT(\d+)H pattern
in the duration (skip the triple when it does not match, as the source only
logs a warning there), then convert the digits (fatal on an Atoi range
error).  Returns the parsed start and hour count, none for a skip, or an
error. -/
def parseTriple (time : String) : Option (ℤ × ℕ) ⊕ String :=
  let parts := splitSlash time
  match parseGoTime parts.1 with
  | none => Sum.inr errBadTime
  | some t =>
    match parts.2 with
    | none => Sum.inr errIndex
    | some dur =>
      match findPTH dur.toList with
      | none => Sum.inl none
      | some ds =>
        match atoiGo ds with
        | none => Sum.inr errRange
        | some hours => Sum.inl (some (t, hours))

/-- snowFallAmount pass of loadFuture over the value triples. -/
def snowPass (m : Timeline) : List FValue → Timeline × Option String
  | [] => (m, none)
  | v :: rest =>
    match parseTriple v.time with
    | Sum.inr e => (m, some e)
    | Sum.inl none => snowPass m rest
    | Sum.inl (some (t, hours)) => snowPass (spreadSnow m t (toInch v.value) hours) rest

/-- snowLevel pass of loadFuture over the value triples. -/
def levelPass (m : Timeline) : List FValue → Timeline × Option String
  | [] => (m, none)
  | v :: rest =>
    match parseTriple v.time with
    | Sum.inr e => (m, some e)
    | Sum.inl none => levelPass m rest
    | Sum.inl (some (t, hours)) => levelPass (spreadLevel m t v.value hours) rest

/-- temperature pass of loadFuture over the value triples. -/
def tempPass (m : Timeline) : List FValue → Timeline × Option String
  | [] => (m, none)
  | v :: rest =>
    match parseTriple v.time with
    | Sum.inr e => (m, some e)
    | Sum.inl none => tempPass m rest
    | Sum.inl (some (t, hours)) => tempPass (spreadTemp m t (toFahrenheit v.value) hours) rest

/-- loadFuture of the source: the three passes in source order, stopping at
the first fatal error and keeping the map mutated so far. -/
def loadFuture (m : Timeline) (d : ForecastDoc) : Timeline × Option String :=
  match snowPass m d.snowFallAmount with
  | (m1, some e) => (m1, some e)
  | (m1, none) =>
    match levelPass m1 d.snowLevel with
    | (m2, some e) => (m2, some e)
    | (m2, none) => tempPass m2 d.temperature

/-- An RGBA color value, mirroring color.RGBA. -/
structure RGBA where
  r : ℕ
  g : ℕ
  b : ℕ
  a : ℕ
  deriving DecidableEq

/-- The main color of the source palette. -/
def mainColor : RGBA := ⟨128, 255, 255, 255⟩

/-- Background color. -/
def backgroundColor : RGBA := ⟨0, 0, 0, 255⟩

/-- Day color of past accumulation columns (aliased to mainColor). -/
def pastSnowDayColor : RGBA := mainColor

/-- Night color of past accumulation columns (aliased to mainColor). -/
def pastSnowNightColor : RGBA := mainColor

/-- Day color of future accumulation columns (aliased to mainColor). -/
def futureSnowDayColor : RGBA := mainColor

/-- Night color of future accumulation columns (aliased to mainColor). -/
def futureSnowNightColor : RGBA := mainColor

/-- Color of the time tick marks. -/
def timeColor : RGBA := ⟨0, 128, 128, 255⟩

/-- Color of the flake and rain markers (aliased to mainColor). -/
def flakeColor : RGBA := mainColor

/-- Cold end color of the temperature strip. -/
def coldColor : RGBA := ⟨50, 168, 168, 255⟩

/-- Hot end color of the temperature strip. -/
def hotColor : RGBA := ⟨139, 168, 50, 255⟩

/-- The tempColors lookup table keyed by integer temperature; outside 29..32
the Go map yields nil, which the guarded call sites never reach, so the model
returns the zero color there. -/
def tempColors (k : ℤ) : RGBA :=
  if k = 29 then ⟨50, 168, 0, 255⟩
  else if k = 30 then ⟨50, 168, 119, 255⟩
  else if k = 31 then ⟨50, 158, 58, 255⟩
  else if k = 32 then ⟨98, 168, 50, 255⟩
  else ⟨0, 0, 0, 0⟩

/-- The pixel surface: a total assignment of colors to integer pixel
coordinates; image.RGBA ignores writes outside its bounds. -/
def Img : Type := ℤ × ℤ → RGBA

/-- Pixel width of the surface: gridWidth*cellSize + (gridWidth+1)*cellSpacing. -/
def imgWidth : ℤ := 1089

/-- Pixel height of the surface: gridHeight*cellSize + (gridHeight+1)*cellSpacing. -/
def imgHeight : ℤ := 273

/-- Whether a pixel lies inside the surface rectangle. -/
def inBounds (p : ℤ × ℤ) : Prop :=
  0 ≤ p.1 ∧ p.1 < imgWidth ∧ 0 ≤ p.2 ∧ p.2 < imgHeight

instance (p : ℤ × ℤ) : Decidable (inBounds p) := by
  unfold inBounds; infer_instance

/-- Whether a pixel lies inside the cellSize-square block of logical cell
(x, y); the block starts at pixel 1 + 17*coordinate as in setPixel. -/
def inCellBlock (x y : ℤ) (p : ℤ × ℤ) : Prop :=
  1 + 17 * x ≤ p.1 ∧ p.1 < 17 + 17 * x ∧ 1 + 17 * y ≤ p.2 ∧ p.2 < 17 + 17 * y

instance (x y : ℤ) (p : ℤ × ℤ) : Decidable (inCellBlock x y p) := by
  unfold inCellBlock; infer_instance

/-- The initial all-black surface produced by makeImage. -/
def makeImage : Img :=
  fun p => if inBounds p then backgroundColor else ⟨0, 0, 0, 0⟩

/-- setPixel of the source: fill the cell block of logical cell (x, y) with a
color; writes outside the surface bounds are dropped, as image.RGBA.Set
does. -/
def setPixel (img : Img) (x y : ℤ) (c : RGBA) : Img :=
  fun p => if inCellBlock x y p ∧ inBounds p then c else img p

/-- The ascending row loop of setColumn: paint rows y, y+1, ... for the given
number of iterations. -/
def paintRows (img : Img) (x : ℤ) (c : RGBA) : ℤ → ℕ → Img
  | _, 0 => img
  | y, n + 1 => paintRows (setPixel img x y c) x c (y + 1) n

/-- setColumn of the source: paint every cell from row y through row
gridHeight-1 of column x, plus the bottom cell when snowing is set and y is
exactly 16. -/
def setColumn (img : Img) (x y : ℤ) (c : RGBA) (snowing : Bool) : Img :=
  let img2 := paintRows img x c y (16 - y).toNat
  if snowing = true ∧ y = 16 then setPixel img2 x 15 c else img2

/-- Go float64-to-int conversion on the rational model: truncation toward
zero. -/
def truncToInt (q : ℚ) : ℤ := Int.tdiv q.num q.den

/-- Mutable state of the render walk: the running accumulation total, the
reset-period baseline depth, and the surface painted so far. -/
structure WalkState where
  total : ℚ
  startDepth : ℚ
  img : Img

/-- The 16:00 accumulation reset of the render walk (lines 421-435 of the
source): when the hour of day is 16, zero a positive total, and when curr is
strictly before now reset startDepth to the observed depth of the record at
curr, or to 0 when no record exists there. -/
def resetAt16 (merged : Timeline) (now curr : ℤ) (total startDepth : ℚ) :
    ℚ × ℚ :=
  if hourOf curr = 16 then
    let total2 := if total > 0 then 0 else total
    let startDepth2 :=
      if curr < now then
        match merged curr with
        | some f => f.ActualSnow
        | none => 0
      else startDepth
    (total2, startDepth2)
  else (total, startDepth)

/-- Pre-branch time tick marks of the render walk. -/
def tickMarks (img : Img) (offset hr : ℤ) : Img :=
  if hr = 0 then setPixel (setPixel img offset 14 timeColor) offset 15 timeColor
  else if hr = 12 then setPixel img offset 15 timeColor
  else img

/-- Post-branch rewrite of the time tick marks. -/
def tickMarksAfter (img : Img) (offset hr : ℤ) : Img :=
  if hr = 0 then setPixel (setPixel img offset 15 timeColor) offset 14 timeColor
  else if hr = 12 then setPixel img offset 15 timeColor
  else img

/-- The temperature strip cell of row 0. -/
def tempStrip (img : Img) (offset : ℤ) (temp : ℚ) : Img :=
  if temp > hotTemp then setPixel img offset 0 hotColor
  else if temp < coldTemp then setPixel img offset 0 coldColor
  else setPixel img offset 0 (tempColors (truncToInt temp))

/-- Future branch of the render walk (lines 444-483 of the source): clamp a
negative total to zero; when the predicted snow level is below the snow line,
paint the tiered flake markers and add the predicted snowfall to the total;
otherwise paint the two-pixel rain marker and leave the total alone; then
paint the accumulation column with the day or night color. -/
def futureBranch (f : HourForecast) (offset hr : ℤ) (img : Img) (total0 : ℚ) :
    Img × ℚ :=
  let total1 := if total0 < 0 then 0 else total0
  let step :=
    if f.PredictedSnowLevel < snowlevel then
      let top := 1 + Int.tmod offset 2 * 2
      let img1 :=
        if f.PredictedSnow > 0 then
          let i1 := if f.PredictedSnow > 0 then setPixel img offset top flakeColor else img
          let i2 := if f.PredictedSnow > 1 / 4 then setPixel i1 offset (top + 4) flakeColor else i1
          if f.PredictedSnow > 1 / 2 then setPixel i2 offset (top + 8) flakeColor else i2
        else img
      (img1, total1 + f.PredictedSnow)
    else
      let top := 1 + Int.tmod offset 2 * 3
      let img1 :=
        if f.PredictedSnow > 0 then
          setPixel (setPixel img offset top flakeColor) offset (top + 1) flakeColor
        else img
      (img1, total1)
  let color := if 16 ≤ hr ∨ hr < 9 then futureSnowNightColor else futureSnowDayColor
  (setColumn step.1 offset (16 - truncToInt step.2) color false, step.2)

/-- Past branch of the render walk (lines 484-511 of the source): paint a
rain or flake marker when observed precipitation is positive, lower the
baseline to the observed depth when it dips below, raise the total to
observed depth minus baseline when that exceeds it, then paint the
accumulation column with the day or night color. -/
def pastBranch (f : HourForecast) (offset hr : ℤ) (img : Img)
    (total startDepth : ℚ) : Img × ℚ × ℚ :=
  let img1 :=
    if f.ActualPrecip > 0 then
      if f.ActualTemp > hotTemp then
        let top := 1 + Int.tmod offset 2 * 3
        setPixel (setPixel img offset top flakeColor) offset (top + 1) flakeColor
      else
        let top := 1 + Int.tmod offset 2 * 2
        setPixel img offset top flakeColor
    else img
  let startDepth2 := if f.ActualSnow < startDepth then f.ActualSnow else startDepth
  let total2 := if f.ActualSnow - startDepth2 > total then f.ActualSnow - startDepth2 else total
  let color := if 16 ≤ hr ∨ hr < 9 then pastSnowNightColor else pastSnowDayColor
  (setColumn img1 offset (16 - truncToInt total2) color false, total2, startDepth2)

/-- One iteration of the visible render loop of buildImage for the hour curr:
tick marks, the 16:00 reset, then, when a record exists, the future or past
branch followed by the temperature strip and the tick rewrite; hours with no
record only advance the state. -/
def hourStep (merged : Timeline) (now graphStart curr : ℤ) (st : WalkState) :
    WalkState :=
  let offset := Int.tdiv (curr - graphStart) 3600
  let hr := hourOf curr
  let img := tickMarks st.img offset hr
  let rs := resetAt16 merged now curr st.total st.startDepth
  match merged curr with
  | none => ⟨rs.1, rs.2, img⟩
  | some f =>
    if now ≤ curr then
      let fb := futureBranch f offset hr img rs.1
      ⟨fb.2, rs.2, tickMarksAfter (tempStrip fb.1 offset f.PredictedTemp) offset hr⟩
    else
      let pb := pastBranch f offset hr img rs.1 rs.2
      ⟨pb.2.1, pb.2.2, tickMarksAfter (tempStrip pb.1 offset f.ActualTemp) offset hr⟩

/-- Iterate hourStep over consecutive hours starting at curr. -/
def walkHours (merged : Timeline) (now graphStart : ℤ) : ℤ → ℕ → WalkState →
    WalkState
  | _, 0, st => st
  | curr, n + 1, st =>
      walkHours merged now graphStart (curr + 3600) n
        (hourStep merged now graphStart curr st)

/-- Observed depths of the records present over n consecutive hours starting
at curr, in walk order. -/
def pastDepths (merged : Timeline) : ℤ → ℕ → List ℚ
  | _, 0 => []
  | curr, n + 1 =>
      (match merged curr with
       | none => []
       | some f => [f.ActualSnow]) ++ pastDepths merged (curr + 3600) n

/-- The window-start scan of buildImage with explicit fuel: the source loop
advances start one hour at a time while no record exists at start, with no
bound of its own; this function returns none when the given number of
iterations was not enough. -/
def findStartFuel (merged : Timeline) : ℕ → ℤ → Option ℤ
  | 0, _ => none
  | n + 1, s =>
      match merged s with
      | some _ => some s
      | none => findStartFuel merged n (s + 3600)

/-- The observed-data view of a record: the hour key and the three fields the
telemetry parser computes. -/
def actualView (r : HourForecast) : ℤ × ℚ × ℚ × ℚ :=
  (r.Hour, r.ActualSnow, r.ActualTemp, r.ActualPrecip)

/-- One map is an additive extension of another on the observed fields: every
populated key stays populated and its hour key and observed fields are
untouched. -/
def preservesActual (m m2 : Timeline) : Prop :=
  ∀ t, (m t).isSome → (m2 t).map actualView = (m t).map actualView

/-- Every record of the map is stored under its own hour key. -/
def keyConsistent (m : Timeline) : Prop :=
  ∀ t r, m t = some r → r.Hour = t

/-- One parser call of the merge sequence. -/
inductive LoadOp where
  | tele (d : TelemetryDoc)
  | future (d : ForecastDoc)

/-- Run a sequence of parser calls against a shared map, keeping the mutated
map of every call whether or not the call reported an error, as a Go caller
holding the map would. -/
def runOps (m : Timeline) : List LoadOp → Timeline
  | [] => m
  | LoadOp.tele d :: rest => runOps (loadPastTelemetry m d).1 rest
  | LoadOp.future d :: rest => runOps (loadFuture m d).1 rest

/-- Concrete record used to exercise the 16:00 reset: observed depth 5 at the
instant 57600, which is 16:00 of the first day of the epoch. -/
def hfC2 : HourForecast :=
  { Hour := 57600, PredictedSnow := 0, PredictedSnowLevel := 0,
    PredictedTemp := 0, ActualSnow := 5, ActualTemp := 0, ActualPrecip := 0 }

/-- Timeline holding only hfC2. -/
def mergedC2 : Timeline := updateT emptyTimeline 57600 hfC2

/-- Concrete record at 11:00 with observed depth 10. -/
def hfC3a : HourForecast :=
  { Hour := 39600, PredictedSnow := 0, PredictedSnowLevel := 0,
    PredictedTemp := 0, ActualSnow := 10, ActualTemp := 20, ActualPrecip := 0 }

/-- Concrete record at 12:00 with observed depth 7 (a dip). -/
def hfC3b : HourForecast :=
  { Hour := 43200, PredictedSnow := 0, PredictedSnowLevel := 0,
    PredictedTemp := 0, ActualSnow := 7, ActualTemp := 20, ActualPrecip := 0 }

/-- Timeline holding hfC3a and hfC3b. -/
def mergedC3 : Timeline := updateT (updateT emptyTimeline 39600 hfC3a) 43200 hfC3b

/-- Initial walk state used to exercise the past branch. -/
def stC3 : WalkState := ⟨0, 9, makeImage⟩

/-- Telemetry observations with a single sample at 04:00 plus one hour of
2026-01-05 (instant 1767589200), depth 5, temperature 20, precipitation 1. -/
def obsW : Observations := ⟨[1767589200], [5], [20], [1]⟩

/-- Telemetry document holding only obsW. -/
def teleDocW : TelemetryDoc := ⟨[obsW]⟩

/-- Forecast document with one temperature triple covering the hour of the
obsW record. -/
def forecastDocW : ForecastDoc :=
  ⟨[], [], [⟨"2026-01-05T04:00:00+00:00/PT1H", 5⟩]⟩

/-- A snowfall triple spanning four hours. -/
def fvW : FValue := ⟨"2026-01-05T04:00:00+00:00/PT4H", 4⟩

/-- A triple whose duration does not match the PTnH pattern. -/
def fvSkip : FValue := ⟨"2026-01-05T04:00:00+00:00/P1D", 3⟩

/-- A triple whose timestamp does not parse. -/
def fvBad : FValue := ⟨"garbage/PT1H", 3⟩

/-- A parser call sequence with one telemetry load. -/
def opsW : List LoadOp := [LoadOp.tele teleDocW]

/-!  Helper lemmas about the map and the bitmap primitives. -/

theorem updateT_self (m : Timeline) (k : ℤ) (r : HourForecast) :
    updateT m k r k = some r := by
  simp [updateT]

theorem updateT_ne (m : Timeline) (k : ℤ) (r : HourForecast) (t : ℤ)
    (h : t ≠ k) : updateT m k r t = m t := by
  simp [updateT, h]

theorem inCellBlock_unique (x y y' : ℤ) (p : ℤ × ℤ) (h : inCellBlock x y p)
    (h2 : inCellBlock x y' p) : y = y' := by
  unfold inCellBlock at h h2; omega

theorem inCellBlock_bounds (x y : ℤ) (p : ℤ × ℤ) (hx0 : 0 ≤ x) (hx1 : x < 64)
    (hy0 : 0 ≤ y) (hy1 : y < 16) (h : inCellBlock x y p) : inBounds p := by
  unfold inCellBlock at h; unfold inBounds imgWidth imgHeight; omega

theorem setPixel_in (img : Img) (x y : ℤ) (c : RGBA) (p : ℤ × ℤ)
    (h : inCellBlock x y p) (hb : inBounds p) : setPixel img x y c p = c := by
  simp [setPixel, h, hb]

theorem setPixel_notin (img : Img) (x y : ℤ) (c : RGBA) (p : ℤ × ℤ)
    (h : ¬ inCellBlock x y p) : setPixel img x y c p = img p := by
  simp [setPixel, h]

theorem setPixel_cases (img : Img) (x y : ℤ) (c : RGBA) (p : ℤ × ℤ) :
    setPixel img x y c p = c ∨ setPixel img x y c p = img p := by
  by_cases h : inCellBlock x y p ∧ inBounds p <;> simp [setPixel, h]

theorem paintRows_pixel (x : ℤ) (c : RGBA) : ∀ (n : ℕ) (y : ℤ) (img : Img)
    (p : ℤ × ℤ), paintRows img x c y n p =
      if ∃ k : ℕ, k < n ∧ inCellBlock x (y + k) p ∧ inBounds p then c
      else img p := by
  intro n
  induction n with
  | zero => intro y img p; simp [paintRows]
  | succ m ih =>
    intro y img p
    rw [show paintRows img x c y (m + 1) = paintRows (setPixel img x y c) x c (y + 1) m from rfl,
      ih]
    by_cases hin : inCellBlock x y p ∧ inBounds p
    · have hnone : ¬ ∃ k : ℕ, k < m ∧ inCellBlock x (y + 1 + k) p ∧ inBounds p := by
        rintro ⟨k, -, hcell, -⟩
        have := inCellBlock_unique x y (y + 1 + k) p hin.1 hcell
        omega
      have hsome : ∃ k : ℕ, k < m + 1 ∧ inCellBlock x (y + k) p ∧ inBounds p :=
        ⟨0, by omega, by simpa using hin.1, hin.2⟩
      rw [if_neg hnone, if_pos hsome, setPixel_in _ _ _ _ _ hin.1 hin.2]
    · have hsp : setPixel img x y c p = img p := by simp [setPixel, hin]
      rw [hsp]
      refine if_congr ?_ rfl rfl
      constructor
      · rintro ⟨k, hk, hcell, hb⟩
        refine ⟨k + 1, by omega, ?_, hb⟩
        have hc : y + ((k + 1 : ℕ) : ℤ) = y + 1 + (k : ℤ) := by push_cast; ring
        rw [hc]; exact hcell
      · rintro ⟨k, hk, hcell, hb⟩
        match k with
        | 0 => exact absurd ⟨by simpa using hcell, hb⟩ hin
        | Nat.succ k =>
            refine ⟨k, by omega, ?_, hb⟩
            have hc : y + 1 + (k : ℤ) = y + ((k + 1 : ℕ) : ℤ) := by push_cast; ring
            rw [hc]; exact hcell

theorem setColumn_pixel (img : Img) (x y : ℤ) (c : RGBA) (p : ℤ × ℤ) :
    setColumn img x y c false p =
      if ∃ k : ℕ, k < (16 - y).toNat ∧ inCellBlock x (y + k) p ∧ inBounds p then c
      else img p := by
  unfold setColumn
  rw [if_neg (by simp)]
  exact paintRows_pixel x c (16 - y).toNat y img p

theorem setColumn_in (img : Img) (x y : ℤ) (c : RGBA) (row : ℤ) (p : ℤ × ℤ)
    (h1 : y ≤ row) (h2 : row < 16) (hcell : inCellBlock x row p)
    (hb : inBounds p) : setColumn img x y c false p = c := by
  rw [setColumn_pixel, if_pos]
  refine ⟨(row - y).toNat, by omega, ?_, hb⟩
  have hc : y + (((row - y).toNat : ℕ) : ℤ) = row := by omega
  rw [hc]; exact hcell

theorem setColumn_out (img : Img) (x y : ℤ) (c : RGBA) (p : ℤ × ℤ)
    (h : ∀ row : ℤ, y ≤ row → row < 16 → ¬ inCellBlock x row p) :
    setColumn img x y c false p = img p := by
  rw [setColumn_pixel, if_neg]
  rintro ⟨k, hk, hcell, -⟩
  exact h (y + k) (by omega) (by omega) hcell

theorem setColumn_cases (img : Img) (x y : ℤ) (c : RGBA) (p : ℤ × ℤ) :
    setColumn img x y c false p = c ∨ setColumn img x y c false p = img p := by
  rw [setColumn_pixel]
  by_cases h : ∃ k : ℕ, k < (16 - y).toNat ∧ inCellBlock x (y + k) p ∧ inBounds p
  · left; rw [if_pos h]
  · right; rw [if_neg h]

/-- C7: the window-start scan of buildImage is an unguarded loop; on the
empty timeline no amount of fuel makes it yield a start, so the source loop
for merged[start] == nil never terminates there, contradicting the claim
that the scan is guarded and surfaces a data-availability error. -/
theorem findStart_empty_diverges : ∀ (n : ℕ) (s : ℤ),
    findStartFuel emptyTimeline n s = none := by
  intro n
  induction n with
  | zero => intro s; rfl
  | succ k ih => intro s; simpa [findStartFuel, emptyTimeline] using ih (s + 3600)

/-- C2 (amended): at an hour-16 step of the render walk the total is zeroed
exactly when it was positive (so the reset never drives it negative), and
startDepth is reset to the observed depth of the record at curr (0 when no
record) exactly when curr is strictly before now; at curr = now or later the
reset leaves startDepth alone. -/
theorem resetAt16_spec (merged : Timeline) (now curr : ℤ) (total startDepth : ℚ)
    (h16 : hourOf curr = 16) :
    (0 < total → (resetAt16 merged now curr total startDepth).1 = 0) ∧
    (total ≤ 0 → (resetAt16 merged now curr total startDepth).1 = total) ∧
    (curr < now → (resetAt16 merged now curr total startDepth).2 =
      ((merged curr).map HourForecast.ActualSnow).getD 0) ∧
    (now ≤ curr → (resetAt16 merged now curr total startDepth).2 = startDepth) := by
  unfold resetAt16
  rw [if_pos h16]
  refine ⟨?_, ?_, ?_, ?_⟩
  · intro h; simp [h]
  · intro h; simp [not_lt.mpr h]
  · intro h
    rw [if_pos h]
    cases hm : merged curr <;> simp [hm]
  · intro h
    rw [if_neg (not_lt.mpr h)]

/-- C2 counterexample: with curr equal to now (hour of day 16), a record with
observed depth 5 at curr, and startDepth 3, the reset leaves startDepth at 3
instead of resetting it to the observed depth, so the reset does not happen
when curr is at now, only strictly before. -/
theorem resetAt16_no_reset_at_now :
    hourOf 57600 = 16 ∧
    (mergedC2 57600).map HourForecast.ActualSnow = some 5 ∧
    (resetAt16 mergedC2 57600 57600 2 3).2 = 3 ∧ (3 : ℚ) ≠ 5 := by
  decide

/-- Witness for resetAt16_spec at a concrete input with curr strictly before
now. -/
theorem resetAt16_spec_witness :
    hourOf 57600 = 16 ∧ (0 : ℚ) < 2 ∧ (57600 : ℤ) < 61200 ∧
    (resetAt16 mergedC2 61200 57600 2 3).1 = 0 ∧
    (resetAt16 mergedC2 61200 57600 2 3).2 = 5 := by
  refine ⟨by decide, by decide, by decide, ?_, ?_⟩
  · exact (resetAt16_spec mergedC2 61200 57600 2 3 (by decide)).1 (by decide)
  · have h := (resetAt16_spec mergedC2 61200 57600 2 3 (by decide)).2.2.1 (by decide)
    rw [h]; decide

/-- C10: setColumn with snowing false paints exactly the cells of column x
from row fromRow through row 15, leaves every pixel outside those cell
blocks unchanged, and in particular leaves the surface entirely unchanged
when fromRow is at least gridHeight, as happens at zero accumulation. -/
theorem setColumn_paints_exactly (img : Img) (x fromRow : ℤ) (c : RGBA)
    (hx0 : 0 ≤ x) (hx1 : x < 64) :
    (∀ row p, fromRow ≤ row → row < 16 → 0 ≤ row → inCellBlock x row p →
       setColumn img x fromRow c false p = c) ∧
    (∀ p, (∀ row : ℤ, fromRow ≤ row → row < 16 → ¬ inCellBlock x row p) →
       setColumn img x fromRow c false p = img p) ∧
    (16 ≤ fromRow → ∀ p, setColumn img x fromRow c false p = img p) := by
  refine ⟨?_, ?_, ?_⟩
  · intro row p h1 h2 h3 hcell
    exact setColumn_in img x fromRow c row p h1 h2 hcell
      (inCellBlock_bounds x row p hx0 hx1 h3 h2 hcell)
  · intro p hnone
    exact setColumn_out img x fromRow c p (fun row h1 h2 => hnone row h1 h2)
  · intro h16 p
    refine setColumn_out img x fromRow c p (fun row h1 h2 => ?_)
    omega

/-- Witness for setColumn_paints_exactly: painting column 2 from row 14
colors a pixel of cell (2, 15), and painting from row 16 changes nothing. -/
theorem setColumn_paints_exactly_witness :
    (0 : ℤ) ≤ 2 ∧ (2 : ℤ) < 64 ∧
    setColumn makeImage 2 14 mainColor false (40, 260) = mainColor ∧
    setColumn makeImage 2 16 mainColor false (40, 40) = makeImage (40, 40) := by
  refine ⟨by decide, by decide, ?_, ?_⟩
  · exact (setColumn_paints_exactly makeImage 2 14 mainColor (by decide) (by decide)).1
      15 (40, 260) (by decide) (by decide) (by decide) (by decide)
  · exact (setColumn_paints_exactly makeImage 2 16 mainColor (by decide) (by decide)).2.2
      (by decide) (40, 40)

/-!  Lemmas about the forecast inner loops. -/

theorem snowSlot_other (t : ℤ) (v : ℚ) (m : Timeline) (h : ℕ) (k : ℤ)
    (hne : k ≠ t + 3600 * (h : ℤ)) : snowSlot t v m h k = m k := by
  unfold snowSlot
  cases hm : m (t + 3600 * (h : ℤ)) <;> simp [updateT, hne]

theorem snowSlot_write (t : ℤ) (v : ℚ) (m : Timeline) (h : ℕ) :
    ((snowSlot t v m h) (t + 3600 * (h : ℤ))).map HourForecast.PredictedSnow
      = some v := by
  unfold snowSlot
  cases hm : m (t + 3600 * (h : ℤ)) <;> simp [updateT]

theorem levelSlot_other (t : ℤ) (v : ℚ) (m : Timeline) (h : ℕ) (k : ℤ)
    (hne : k ≠ t + 3600 * (h : ℤ)) : levelSlot t v m h k = m k := by
  unfold levelSlot
  cases hm : m (t + 3600 * (h : ℤ)) <;> simp [updateT, hne]

theorem levelSlot_write (t : ℤ) (v : ℚ) (m : Timeline) (h : ℕ) :
    ((levelSlot t v m h) (t + 3600 * (h : ℤ))).map HourForecast.PredictedSnowLevel
      = some v := by
  unfold levelSlot
  cases hm : m (t + 3600 * (h : ℤ)) <;> simp [updateT]

theorem tempSlot_other (t : ℤ) (v : ℚ) (m : Timeline) (h : ℕ) (k : ℤ)
    (hne : k ≠ t + 3600 * (h : ℤ)) : tempSlot t v m h k = m k := by
  unfold tempSlot
  cases hm : m (t + 3600 * (h : ℤ)) <;> simp [updateT, hne]

theorem tempSlot_write (t : ℤ) (v : ℚ) (m : Timeline) (h : ℕ) :
    ((tempSlot t v m h) (t + 3600 * (h : ℤ))).map HourForecast.PredictedTemp
      = some v := by
  unfold tempSlot
  cases hm : m (t + 3600 * (h : ℤ)) <;> simp [updateT]

theorem foldSnow_get (t : ℤ) (v : ℚ) : ∀ (n : ℕ) (m : Timeline) (k : ℕ),
    k < n →
    (((List.range n).foldl (snowSlot t v) m) (t + 3600 * (k : ℤ))).map
      HourForecast.PredictedSnow = some v := by
  intro n
  induction n with
  | zero => intro m k hk; exact absurd hk (by omega)
  | succ nn ih =>
    intro m k hk
    rw [List.range_succ, List.foldl_append]
    simp only [List.foldl_cons, List.foldl_nil]
    by_cases hkn : k = nn
    · subst hkn; exact snowSlot_write t v _ k
    · have hne : t + 3600 * (k : ℤ) ≠ t + 3600 * (nn : ℤ) := by
        intro hc; apply hkn; omega
      rw [snowSlot_other t v _ nn _ hne]
      exact ih m k (by omega)

theorem foldLevel_get (t : ℤ) (v : ℚ) : ∀ (n : ℕ) (m : Timeline) (k : ℕ),
    k < n →
    (((List.range n).foldl (levelSlot t v) m) (t + 3600 * (k : ℤ))).map
      HourForecast.PredictedSnowLevel = some v := by
  intro n
  induction n with
  | zero => intro m k hk; exact absurd hk (by omega)
  | succ nn ih =>
    intro m k hk
    rw [List.range_succ, List.foldl_append]
    simp only [List.foldl_cons, List.foldl_nil]
    by_cases hkn : k = nn
    · subst hkn; exact levelSlot_write t v _ k
    · have hne : t + 3600 * (k : ℤ) ≠ t + 3600 * (nn : ℤ) := by
        intro hc; apply hkn; omega
      rw [levelSlot_other t v _ nn _ hne]
      exact ih m k (by omega)

theorem foldTemp_get (t : ℤ) (v : ℚ) : ∀ (n : ℕ) (m : Timeline) (k : ℕ),
    k < n →
    (((List.range n).foldl (tempSlot t v) m) (t + 3600 * (k : ℤ))).map
      HourForecast.PredictedTemp = some v := by
  intro n
  induction n with
  | zero => intro m k hk; exact absurd hk (by omega)
  | succ nn ih =>
    intro m k hk
    rw [List.range_succ, List.foldl_append]
    simp only [List.foldl_cons, List.foldl_nil]
    by_cases hkn : k = nn
    · subst hkn; exact tempSlot_write t v _ k
    · have hne : t + 3600 * (k : ℤ) ≠ t + 3600 * (nn : ℤ) := by
        intro hc; apply hkn; omega
      rw [tempSlot_other t v _ nn _ hne]
      exact ih m k (by omega)

/-- C4: a forecast triple whose duration matches h whole hours sets, at every
one of the h hourly sub-slots, the predicted snow of the snowfall pass to the
millimetre-to-inch converted value divided by h, the predicted temperature of
the temperature pass to the Celsius-to-Fahrenheit converted value unchanged,
and the predicted snow level of the snow-level pass to the raw value
unchanged, with none of the passes reporting an error. -/
theorem forecastTriple_spreads (m : Timeline) (v : FValue) (t : ℤ) (h : ℕ)
    (hparse : parseTriple v.time = Sum.inl (some (t, h))) :
    ∀ k : ℕ, k < h →
      (((snowPass m [v]).1 (t + 3600 * (k : ℤ))).map HourForecast.PredictedSnow
          = some (toInch v.value / (h : ℚ))) ∧
      (((levelPass m [v]).1 (t + 3600 * (k : ℤ))).map HourForecast.PredictedSnowLevel
          = some v.value) ∧
      (((tempPass m [v]).1 (t + 3600 * (k : ℤ))).map HourForecast.PredictedTemp
          = some (toFahrenheit v.value)) ∧
      (snowPass m [v]).2 = none ∧ (levelPass m [v]).2 = none ∧
      (tempPass m [v]).2 = none := by
  intro k hk
  have hs : snowPass m [v] = (spreadSnow m t (toInch v.value) h, none) := by
    simp [snowPass, hparse]
  have hl : levelPass m [v] = (spreadLevel m t v.value h, none) := by
    simp [levelPass, hparse]
  have ht : tempPass m [v] = (spreadTemp m t (toFahrenheit v.value) h, none) := by
    simp [tempPass, hparse]
  refine ⟨?_, ?_, ?_, by rw [hs], by rw [hl], by rw [ht]⟩
  · rw [hs]; exact foldSnow_get t (toInch v.value / (h : ℚ)) h m k hk
  · rw [hl]; exact foldLevel_get t v.value h m k hk
  · rw [ht]; exact foldTemp_get t (toFahrenheit v.value) h m k hk

/-- Witness for forecastTriple_spreads: the concrete snowfall triple fvW
spans four hours starting 2026-01-05 04:00:00, and the theorem applies at
sub-slot 2. -/
theorem forecastTriple_spreads_witness :
    parseTriple fvW.time = Sum.inl (some (1767585600, 4)) ∧ 2 < 4 ∧
    (((snowPass emptyTimeline [fvW]).1 (1767585600 + 3600 * ((2 : ℕ) : ℤ))).map
        HourForecast.PredictedSnow = some (toInch fvW.value / ((4 : ℕ) : ℚ))) ∧
    (snowPass emptyTimeline [fvW]).2 = none := by
  refine ⟨by decide, by decide, ?_, ?_⟩
  · exact (forecastTriple_spreads emptyTimeline fvW 1767585600 4 (by decide) 2
      (by decide)).1
  · exact (forecastTriple_spreads emptyTimeline fvW 1767585600 4 (by decide) 2
      (by decide)).2.2.2.1

/-- C8: a forecast triple whose timestamp parses but whose duration has no
PTnH match is skipped by each pass, which continues with the remaining
triples and the unchanged map and reports no error of its own; a triple
whose timestamp does not parse makes the pass stop at once with a fatal
error and the map unchanged. -/
theorem loadFuture_duration_skip (m : Timeline) (v w : FValue)
    (rest : List FValue) (s dur : String) (t : ℤ)
    (hsplit : splitSlash v.time = (s, some dur))
    (hts : parseGoTime s = some t)
    (hdur : findPTH dur.toList = none)
    (hbad : parseGoTime (splitSlash w.time).1 = none) :
    snowPass m (v :: rest) = snowPass m rest ∧
    levelPass m (v :: rest) = levelPass m rest ∧
    tempPass m (v :: rest) = tempPass m rest ∧
    snowPass m (w :: rest) = (m, some errBadTime) ∧
    levelPass m (w :: rest) = (m, some errBadTime) ∧
    tempPass m (w :: rest) = (m, some errBadTime) := by
  have hv : parseTriple v.time = Sum.inl none := by
    unfold parseTriple
    rw [hsplit]
    simp [hts, show findPTH dur.data = none from hdur]
  have hw : parseTriple w.time = Sum.inr errBadTime := by
    unfold parseTriple
    simp [hbad]
  refine ⟨?_, ?_, ?_, ?_, ?_, ?_⟩ <;>
    simp [snowPass, levelPass, tempPass, hv, hw]

/-- Witness for loadFuture_duration_skip: fvSkip has the unmatched duration
P1D and fvBad has an unparseable timestamp. -/
theorem loadFuture_duration_skip_witness :
    splitSlash fvSkip.time = ("2026-01-05T04:00:00+00:00", some "P1D") ∧
    parseGoTime "2026-01-05T04:00:00+00:00" = some 1767585600 ∧
    findPTH "P1D".toList = none ∧
    parseGoTime (splitSlash fvBad.time).1 = none ∧
    snowPass emptyTimeline [fvSkip] = snowPass emptyTimeline [] ∧
    snowPass emptyTimeline [fvBad] = (emptyTimeline, some errBadTime) := by
  refine ⟨by decide, by decide, by decide, by decide, ?_, ?_⟩
  · exact (loadFuture_duration_skip emptyTimeline fvSkip fvBad []
      "2026-01-05T04:00:00+00:00" "P1D" 1767585600 (by decide) (by decide)
      (by decide) (by decide)).1
  · exact (loadFuture_duration_skip emptyTimeline fvSkip fvBad []
      "2026-01-05T04:00:00+00:00" "P1D" 1767585600 (by decide) (by decide)
      (by decide) (by decide)).2.2.2.1

/-!  Lemmas about the telemetry loop. -/

theorem teleLoop_preserves : ∀ (ts : List ℤ) (ss tps prs : List ℚ)
    (m : Timeline) (k : ℤ), (∀ x ∈ ts, x - 3600 ≠ k) →
    ((teleLoop m ts ss tps prs).1) k = m k := by
  intro ts
  induction ts with
  | nil => intro ss tps prs m k _; rfl
  | cons t ts ih =>
    intro ss tps prs m k hk
    cases ss with
    | nil => rfl
    | cons s ss =>
      cases tps with
      | nil => rfl
      | cons tp tps =>
        cases prs with
        | nil => rfl
        | cons pr prs =>
          rw [show teleLoop m (t :: ts) (s :: ss) (tp :: tps) (pr :: prs) =
            teleLoop (updateT m (t - 3600)
              { Hour := t - 3600, PredictedSnow := 0, PredictedSnowLevel := 0,
                PredictedTemp := 0, ActualSnow := s, ActualTemp := tp,
                ActualPrecip := pr }) ts ss tps prs from rfl]
          rw [ih ss tps prs _ k (fun x hx => hk x (List.mem_cons_of_mem t hx))]
          exact updateT_ne _ _ _ _ (fun hc => hk t (List.mem_cons_self t ts) (by omega))

theorem teleLoop_get : ∀ (ts : List ℤ) (ss tps prs : List ℚ) (m : Timeline)
    (i : ℕ) (hi : i < ts.length), ts.Nodup →
    ∀ (h1 : ts.length ≤ ss.length) (h2 : ts.length ≤ tps.length)
      (h3 : ts.length ≤ prs.length),
    ((teleLoop m ts ss tps prs).1) (ts.get ⟨i, hi⟩ - 3600) =
      some { Hour := ts.get ⟨i, hi⟩ - 3600, PredictedSnow := 0,
             PredictedSnowLevel := 0, PredictedTemp := 0,
             ActualSnow := ss.get ⟨i, lt_of_lt_of_le hi h1⟩,
             ActualTemp := tps.get ⟨i, lt_of_lt_of_le hi h2⟩,
             ActualPrecip := prs.get ⟨i, lt_of_lt_of_le hi h3⟩ } := by
  intro ts
  induction ts with
  | nil => intro ss tps prs m i hi; exact absurd hi (by simp)
  | cons t ts ih =>
    intro ss tps prs m i hi hnd h1 h2 h3
    cases ss with
    | nil => simp at h1
    | cons s ss =>
      cases tps with
      | nil => simp at h2
      | cons tp tps =>
        cases prs with
        | nil => simp at h3
        | cons pr prs =>
          rw [show teleLoop m (t :: ts) (s :: ss) (tp :: tps) (pr :: prs) =
            teleLoop (updateT m (t - 3600)
              { Hour := t - 3600, PredictedSnow := 0, PredictedSnowLevel := 0,
                PredictedTemp := 0, ActualSnow := s, ActualTemp := tp,
                ActualPrecip := pr }) ts ss tps prs from rfl]
          have hnd2 := List.nodup_cons.mp hnd
          match i with
          | 0 =>
            rw [teleLoop_preserves ts ss tps prs _ _
              (fun x hx hc => hnd2.1 (by
                have hg : (t :: ts).get ⟨0, hi⟩ = t := rfl
                rw [hg] at hc
                have hxt : x = t := by omega
                rw [hxt] at hx; exact hx))]
            exact updateT_self _ _ _
          | Nat.succ j =>
            exact ih ss tps prs _ j (by simpa using hi) hnd2.2
              (by simpa using h1) (by simpa using h2) (by simpa using h3)

/-- C6: every sample of the first station of the telemetry document produces
a record keyed at the sample timestamp minus one hour, holding that sample
as its observed snow depth, observed temperature and observed one-hour
precipitation (samples are assumed to carry distinct timestamps, and the
value arrays to be at least as long as the timestamp array, as in any
well-formed source document). -/
theorem loadPastTelemetry_hour_shift (m : Timeline) (d : TelemetryDoc)
    (obs : Observations) (rest : List Observations) (i : ℕ)
    (hst : d.stations = obs :: rest)
    (hi : i < obs.dateTime.length)
    (hnd : obs.dateTime.Nodup)
    (h1 : obs.dateTime.length ≤ obs.snow.length)
    (h2 : obs.dateTime.length ≤ obs.temp.length)
    (h3 : obs.dateTime.length ≤ obs.hourPrecip.length) :
    ((loadPastTelemetry m d).1) (obs.dateTime.get ⟨i, hi⟩ - 3600) =
      some { Hour := obs.dateTime.get ⟨i, hi⟩ - 3600, PredictedSnow := 0,
             PredictedSnowLevel := 0, PredictedTemp := 0,
             ActualSnow := obs.snow.get ⟨i, lt_of_lt_of_le hi h1⟩,
             ActualTemp := obs.temp.get ⟨i, lt_of_lt_of_le hi h2⟩,
             ActualPrecip := obs.hourPrecip.get ⟨i, lt_of_lt_of_le hi h3⟩ } := by
  unfold loadPastTelemetry
  rw [hst]
  exact teleLoop_get obs.dateTime obs.snow obs.temp obs.hourPrecip m i hi hnd h1 h2 h3

/-- Witness for loadPastTelemetry_hour_shift: the single obsW sample at
instant 1767589200 yields a record at 1767585600, one hour earlier. -/
theorem loadPastTelemetry_hour_shift_witness :
    teleDocW.stations = obsW :: [] ∧ obsW.dateTime.Nodup ∧
    obsW.dateTime.get ⟨0, by decide⟩ - 3600 = 1767585600 ∧
    ((loadPastTelemetry emptyTimeline teleDocW).1)
        (obsW.dateTime.get ⟨0, by decide⟩ - 3600) =
      some { Hour := obsW.dateTime.get ⟨0, by decide⟩ - 3600, PredictedSnow := 0,
             PredictedSnowLevel := 0, PredictedTemp := 0,
             ActualSnow := obsW.snow.get ⟨0, by decide⟩,
             ActualTemp := obsW.temp.get ⟨0, by decide⟩,
             ActualPrecip := obsW.hourPrecip.get ⟨0, by decide⟩ } := by
  refine ⟨by decide, by decide, by decide, ?_⟩
  exact loadPastTelemetry_hour_shift emptyTimeline teleDocW obsW [] 0
    (by decide) (by decide) (by decide) (by decide) (by decide) (by decide)

/-!  Additive-merge lemmas: loadFuture never disturbs observed fields. -/

theorem preservesActual_refl (m : Timeline) : preservesActual m m :=
  fun _ _ => rfl

theorem isSome_of_preservesActual {m m2 : Timeline} (h : preservesActual m m2)
    (t : ℤ) (ht : (m t).isSome) : (m2 t).isSome := by
  have e := h t ht
  cases hm : m t with
  | none => rw [hm] at ht; simp at ht
  | some r =>
    rw [hm] at e
    cases hm2 : m2 t with
    | none => rw [hm2] at e; simp at e
    | some r2 => simp

theorem preservesActual_trans {m1 m2 m3 : Timeline}
    (h12 : preservesActual m1 m2) (h23 : preservesActual m2 m3) :
    preservesActual m1 m3 := by
  intro t h1
  calc (m3 t).map actualView
      = (m2 t).map actualView := h23 t (isSome_of_preservesActual h12 t h1)
    _ = (m1 t).map actualView := h12 t h1

theorem snowSlot_preservesActual (t : ℤ) (v : ℚ) (m : Timeline) (h : ℕ) :
    preservesActual m (snowSlot t v m h) := by
  intro k hk
  by_cases hkey : k = t + 3600 * (h : ℤ)
  · subst hkey
    cases hm : m (t + 3600 * (h : ℤ)) with
    | none => rw [hm] at hk; simp at hk
    | some present => simp [snowSlot, hm, updateT, actualView]
  · rw [snowSlot_other t v m h k hkey]

theorem levelSlot_preservesActual (t : ℤ) (v : ℚ) (m : Timeline) (h : ℕ) :
    preservesActual m (levelSlot t v m h) := by
  intro k hk
  by_cases hkey : k = t + 3600 * (h : ℤ)
  · subst hkey
    cases hm : m (t + 3600 * (h : ℤ)) with
    | none => rw [hm] at hk; simp at hk
    | some present => simp [levelSlot, hm, updateT, actualView]
  · rw [levelSlot_other t v m h k hkey]

theorem tempSlot_preservesActual (t : ℤ) (v : ℚ) (m : Timeline) (h : ℕ) :
    preservesActual m (tempSlot t v m h) := by
  intro k hk
  by_cases hkey : k = t + 3600 * (h : ℤ)
  · subst hkey
    cases hm : m (t + 3600 * (h : ℤ)) with
    | none => rw [hm] at hk; simp at hk
    | some present => simp [tempSlot, hm, updateT, actualView]
  · rw [tempSlot_other t v m h k hkey]

theorem foldl_preservesActual {f : Timeline → ℕ → Timeline}
    (hf : ∀ m h, preservesActual m (f m h)) : ∀ (l : List ℕ) (m : Timeline),
    preservesActual m (l.foldl f m) := by
  intro l
  induction l with
  | nil => intro m; exact preservesActual_refl m
  | cons a l ih => intro m; exact preservesActual_trans (hf m a) (ih (f m a))

theorem snowPass_preservesActual : ∀ (l : List FValue) (m : Timeline),
    preservesActual m (snowPass m l).1 := by
  intro l
  induction l with
  | nil => intro m; exact preservesActual_refl m
  | cons v rest ih =>
    intro m
    cases hp : parseTriple v.time with
    | inr e => simp only [snowPass, hp]; exact preservesActual_refl m
    | inl o =>
      cases o with
      | none => simp only [snowPass, hp]; exact ih m
      | some th =>
        simp only [snowPass, hp]
        exact preservesActual_trans
          (foldl_preservesActual (fun m h => snowSlot_preservesActual th.1 _ m h)
            (List.range th.2) m)
          (ih _)

theorem levelPass_preservesActual : ∀ (l : List FValue) (m : Timeline),
    preservesActual m (levelPass m l).1 := by
  intro l
  induction l with
  | nil => intro m; exact preservesActual_refl m
  | cons v rest ih =>
    intro m
    cases hp : parseTriple v.time with
    | inr e => simp only [levelPass, hp]; exact preservesActual_refl m
    | inl o =>
      cases o with
      | none => simp only [levelPass, hp]; exact ih m
      | some th =>
        simp only [levelPass, hp]
        exact preservesActual_trans
          (foldl_preservesActual (fun m h => levelSlot_preservesActual th.1 _ m h)
            (List.range th.2) m)
          (ih _)

theorem tempPass_preservesActual : ∀ (l : List FValue) (m : Timeline),
    preservesActual m (tempPass m l).1 := by
  intro l
  induction l with
  | nil => intro m; exact preservesActual_refl m
  | cons v rest ih =>
    intro m
    cases hp : parseTriple v.time with
    | inr e => simp only [tempPass, hp]; exact preservesActual_refl m
    | inl o =>
      cases o with
      | none => simp only [tempPass, hp]; exact ih m
      | some th =>
        simp only [tempPass, hp]
        exact preservesActual_trans
          (foldl_preservesActual (fun m h => tempSlot_preservesActual th.1 _ m h)
            (List.range th.2) m)
          (ih _)

theorem loadFuture_preservesActual (m : Timeline) (d : ForecastDoc) :
    preservesActual m (loadFuture m d).1 := by
  unfold loadFuture
  split
  · rename_i m1 e h1
    have hs := snowPass_preservesActual d.snowFallAmount m
    rw [h1] at hs
    exact hs
  · rename_i m1 h1
    have hs := snowPass_preservesActual d.snowFallAmount m
    rw [h1] at hs
    split
    · rename_i m2 e h2
      have hl := levelPass_preservesActual d.snowLevel m1
      rw [h2] at hl
      exact preservesActual_trans hs hl
    · rename_i m2 h2
      have hl := levelPass_preservesActual d.snowLevel m1
      rw [h2] at hl
      exact preservesActual_trans hs (preservesActual_trans hl
        (tempPass_preservesActual d.temperature m2))

/-- C1: after the telemetry pass followed by the forecast pass (the order
buildImage uses), every hour key populated by the telemetry pass is still
populated, and its hour key, observed snow depth, observed temperature and
observed precipitation are exactly as the telemetry pass left them: the
forecast pass only fills in its own predicted fields, never nulling an
observed field, and the function-typed map holds at most one record per key
by construction. -/
theorem loadFuture_preserves_actual_after_telemetry (tele : TelemetryDoc)
    (fc : ForecastDoc) (t : ℤ)
    (h : (((loadPastTelemetry emptyTimeline tele).1) t).isSome) :
    (((loadFuture (loadPastTelemetry emptyTimeline tele).1 fc).1) t).map actualView
      = (((loadPastTelemetry emptyTimeline tele).1) t).map actualView :=
  loadFuture_preservesActual (loadPastTelemetry emptyTimeline tele).1 fc t h

/-- Witness for loadFuture_preserves_actual_after_telemetry: the telemetry
record at 1767585600 survives the forecast pass of forecastDocW, which
covers the same hour with a temperature triple. -/
theorem loadFuture_preserves_actual_after_telemetry_witness :
    (((loadPastTelemetry emptyTimeline teleDocW).1) 1767585600).isSome ∧
    (((loadFuture (loadPastTelemetry emptyTimeline teleDocW).1 forecastDocW).1)
        1767585600).map actualView
      = (((loadPastTelemetry emptyTimeline teleDocW).1) 1767585600).map actualView :=
  ⟨by decide,
    loadFuture_preserves_actual_after_telemetry teleDocW forecastDocW 1767585600
      (by decide)⟩

/-!  Key-consistency lemmas: every record sits under its own hour key. -/

theorem keyConsistent_empty : keyConsistent emptyTimeline := by
  intro t r h
  simp [emptyTimeline] at h

theorem keyConsistent_updateT {m : Timeline} (h : keyConsistent m) (k : ℤ)
    (r : HourForecast) (hr : r.Hour = k) : keyConsistent (updateT m k r) := by
  intro t r2 h2
  by_cases ht : t = k
  · subst ht
    rw [updateT_self] at h2
    cases h2
    exact hr
  · rw [updateT_ne _ _ _ _ ht] at h2
    exact h t r2 h2

theorem keyConsistent_snowSlot {m : Timeline} (h : keyConsistent m) (t : ℤ)
    (v : ℚ) (hh : ℕ) : keyConsistent (snowSlot t v m hh) := by
  cases hm : m (t + 3600 * (hh : ℤ)) with
  | none =>
    simp only [snowSlot, hm]
    exact keyConsistent_updateT h _ _ rfl
  | some present =>
    simp only [snowSlot, hm]
    exact keyConsistent_updateT h _ _ (h _ present hm)

theorem keyConsistent_levelSlot {m : Timeline} (h : keyConsistent m) (t : ℤ)
    (v : ℚ) (hh : ℕ) : keyConsistent (levelSlot t v m hh) := by
  cases hm : m (t + 3600 * (hh : ℤ)) with
  | none =>
    simp only [levelSlot, hm]
    exact keyConsistent_updateT h _ _ rfl
  | some present =>
    simp only [levelSlot, hm]
    exact keyConsistent_updateT h _ _ (h _ present hm)

theorem keyConsistent_tempSlot {m : Timeline} (h : keyConsistent m) (t : ℤ)
    (v : ℚ) (hh : ℕ) : keyConsistent (tempSlot t v m hh) := by
  cases hm : m (t + 3600 * (hh : ℤ)) with
  | none =>
    simp only [tempSlot, hm]
    exact keyConsistent_updateT h _ _ rfl
  | some present =>
    simp only [tempSlot, hm]
    exact keyConsistent_updateT h _ _ (h _ present hm)

theorem keyConsistent_foldl {f : Timeline → ℕ → Timeline}
    (hf : ∀ m h, keyConsistent m → keyConsistent (f m h)) :
    ∀ (l : List ℕ) (m : Timeline), keyConsistent m →
    keyConsistent (l.foldl f m) := by
  intro l
  induction l with
  | nil => intro m hm; exact hm
  | cons a l ih => intro m hm; exact ih (f m a) (hf m a hm)

theorem keyConsistent_snowPass : ∀ (l : List FValue) (m : Timeline),
    keyConsistent m → keyConsistent (snowPass m l).1 := by
  intro l
  induction l with
  | nil => intro m hm; exact hm
  | cons v rest ih =>
    intro m hm
    cases hp : parseTriple v.time with
    | inr e => simp only [snowPass, hp]; exact hm
    | inl o =>
      cases o with
      | none => simp only [snowPass, hp]; exact ih m hm
      | some th =>
        simp only [snowPass, hp]
        exact ih _ (keyConsistent_foldl
          (fun m h hk => keyConsistent_snowSlot hk th.1 _ h) (List.range th.2) m hm)

theorem keyConsistent_levelPass : ∀ (l : List FValue) (m : Timeline),
    keyConsistent m → keyConsistent (levelPass m l).1 := by
  intro l
  induction l with
  | nil => intro m hm; exact hm
  | cons v rest ih =>
    intro m hm
    cases hp : parseTriple v.time with
    | inr e => simp only [levelPass, hp]; exact hm
    | inl o =>
      cases o with
      | none => simp only [levelPass, hp]; exact ih m hm
      | some th =>
        simp only [levelPass, hp]
        exact ih _ (keyConsistent_foldl
          (fun m h hk => keyConsistent_levelSlot hk th.1 _ h) (List.range th.2) m hm)

theorem keyConsistent_tempPass : ∀ (l : List FValue) (m : Timeline),
    keyConsistent m → keyConsistent (tempPass m l).1 := by
  intro l
  induction l with
  | nil => intro m hm; exact hm
  | cons v rest ih =>
    intro m hm
    cases hp : parseTriple v.time with
    | inr e => simp only [tempPass, hp]; exact hm
    | inl o =>
      cases o with
      | none => simp only [tempPass, hp]; exact ih m hm
      | some th =>
        simp only [tempPass, hp]
        exact ih _ (keyConsistent_foldl
          (fun m h hk => keyConsistent_tempSlot hk th.1 _ h) (List.range th.2) m hm)

theorem keyConsistent_loadFuture {m : Timeline} (hm : keyConsistent m)
    (d : ForecastDoc) : keyConsistent (loadFuture m d).1 := by
  unfold loadFuture
  split
  · rename_i m1 e h1
    have hs := keyConsistent_snowPass d.snowFallAmount m hm
    rw [h1] at hs
    exact hs
  · rename_i m1 h1
    have hs := keyConsistent_snowPass d.snowFallAmount m hm
    rw [h1] at hs
    split
    · rename_i m2 e h2
      have hl := keyConsistent_levelPass d.snowLevel m1 hs
      rw [h2] at hl
      exact hl
    · rename_i m2 h2
      have hl := keyConsistent_levelPass d.snowLevel m1 hs
      rw [h2] at hl
      exact keyConsistent_tempPass d.temperature m2 hl

theorem keyConsistent_teleLoop : ∀ (ts : List ℤ) (ss tps prs : List ℚ)
    (m : Timeline), keyConsistent m → keyConsistent (teleLoop m ts ss tps prs).1 := by
  intro ts
  induction ts with
  | nil => intro ss tps prs m hm; exact hm
  | cons t ts ih =>
    intro ss tps prs m hm
    cases ss with
    | nil => exact hm
    | cons s ss =>
      cases tps with
      | nil => exact hm
      | cons tp tps =>
        cases prs with
        | nil => exact hm
        | cons pr prs =>
          exact ih ss tps prs _ (keyConsistent_updateT hm _ _ rfl)

theorem keyConsistent_loadPastTelemetry {m : Timeline} (hm : keyConsistent m)
    (d : TelemetryDoc) : keyConsistent (loadPastTelemetry m d).1 := by
  unfold loadPastTelemetry
  cases d.stations with
  | nil => exact hm
  | cons obs rest => exact keyConsistent_teleLoop obs.dateTime obs.snow obs.temp obs.hourPrecip m hm

theorem keyConsistent_runOps : ∀ (ops : List LoadOp) (m : Timeline),
    keyConsistent m → keyConsistent (runOps m ops) := by
  intro ops
  induction ops with
  | nil => intro m hm; exact hm
  | cons op rest ih =>
    intro m hm
    cases op with
    | tele d => exact ih _ (keyConsistent_loadPastTelemetry hm d)
    | future d => exact ih _ (keyConsistent_loadFuture hm d)

/-- C9: after any sequence of loadPastTelemetry and loadFuture calls starting
from the empty timeline, every stored record carries the hour key under which
it is stored: both parsers always set the Hour field to the insertion key and
field updates never touch it. -/
theorem runOps_hour_key_consistent (ops : List LoadOp) (t : ℤ)
    (r : HourForecast) (h : runOps emptyTimeline ops t = some r) : r.Hour = t :=
  keyConsistent_runOps ops emptyTimeline keyConsistent_empty t r h

/-- Witness for runOps_hour_key_consistent: one telemetry load stores a
record at 1767585600 whose Hour field is 1767585600. -/
theorem runOps_hour_key_consistent_witness :
    runOps emptyTimeline opsW 1767585600 =
      some { Hour := 1767585600, PredictedSnow := 0, PredictedSnowLevel := 0,
             PredictedTemp := 0, ActualSnow := 5, ActualTemp := 20,
             ActualPrecip := 1 } ∧
    ({ Hour := 1767585600, PredictedSnow := 0, PredictedSnowLevel := 0,
       PredictedTemp := 0, ActualSnow := 5, ActualTemp := 20,
       ActualPrecip := 1 } : HourForecast).Hour = 1767585600 :=
  ⟨by decide, runOps_hour_key_consistent opsW 1767585600 _ (by decide)⟩

/-!  Lemmas for the future branch of the render walk. -/

theorem setPixel_other_row (img : Img) (x y y' : ℤ) (c : RGBA) (p : ℤ × ℤ)
    (hp : inCellBlock x y p) (hne : y ≠ y') : setPixel img x y' c p = img p := by
  apply setPixel_notin
  intro hcell
  exact hne (inCellBlock_unique x y y' p hp hcell)

theorem setColumn_flake (img : Img) (x y : ℤ) (c : RGBA) (p : ℤ × ℤ)
    (hc : c = flakeColor) (himg : img p = flakeColor) :
    setColumn img x y c false p = flakeColor := by
  rcases setColumn_cases img x y c p with h | h
  · rw [h, hc]
  · rw [h, himg]

theorem futureColor_eq (hr : ℤ) :
    (if 16 ≤ hr ∨ hr < 9 then futureSnowNightColor else futureSnowDayColor)
      = flakeColor := by
  unfold futureSnowNightColor futureSnowDayColor flakeColor
  split <;> rfl

/-- C5: in the future branch with a nonnegative running total, a predicted
snow level below the snow line adds the predicted snowfall to the total and
paints the tiered flake markers (rows top, top+4, top+8 with top alternating
between 1 and 3 by column parity) for predicted snow above 0, 0.25 and 0.5
inches; a snow level at or above the snow line adds nothing to the total and
paints the two-pixel rain marker (rows top and top+1 with top alternating
between 1 and 4) when predicted snow is positive. -/
theorem futureBranch_snow_rain (f : HourForecast) (offset hr : ℤ) (img : Img)
    (total : ℚ) (hoff0 : 0 ≤ offset) (hoff1 : offset < 64) (htot : 0 ≤ total) :
    (f.PredictedSnowLevel < snowlevel →
      (futureBranch f offset hr img total).2 = total + f.PredictedSnow ∧
      (0 < f.PredictedSnow →
        ∀ p, inCellBlock offset (1 + Int.tmod offset 2 * 2) p →
          (futureBranch f offset hr img total).1 p = flakeColor) ∧
      (1 / 4 < f.PredictedSnow →
        ∀ p, inCellBlock offset (1 + Int.tmod offset 2 * 2 + 4) p →
          (futureBranch f offset hr img total).1 p = flakeColor) ∧
      (1 / 2 < f.PredictedSnow →
        ∀ p, inCellBlock offset (1 + Int.tmod offset 2 * 2 + 8) p →
          (futureBranch f offset hr img total).1 p = flakeColor)) ∧
    (snowlevel ≤ f.PredictedSnowLevel →
      (futureBranch f offset hr img total).2 = total ∧
      (0 < f.PredictedSnow →
        ∀ p, inCellBlock offset (1 + Int.tmod offset 2 * 3) p ∨
            inCellBlock offset (1 + Int.tmod offset 2 * 3 + 1) p →
          (futureBranch f offset hr img total).1 p = flakeColor)) := by
  have hnneg : ¬ total < 0 := not_lt.mpr htot
  have hmb : 0 ≤ Int.tmod offset 2 ∧ Int.tmod offset 2 ≤ 1 := by
    rw [Int.tmod_eq_emod hoff0 (by omega)]
    omega
  constructor
  · intro hlevel
    refine ⟨?_, ?_, ?_, ?_⟩
    · simp only [futureBranch, if_pos hlevel, if_neg hnneg]
    · intro hsnow p hp
      have hb : inBounds p :=
        inCellBlock_bounds offset _ p hoff0 hoff1 (by omega) (by omega) hp
      simp only [futureBranch, if_pos hlevel, if_neg hnneg, if_pos hsnow]
      apply setColumn_flake _ _ _ _ _ (futureColor_eq hr)
      split_ifs with hq2 hq3
      · rw [setPixel_other_row _ offset _ _ _ p hp (by omega),
          setPixel_other_row _ offset _ _ _ p hp (by omega),
          setPixel_in _ _ _ _ _ hp hb]
      · rw [setPixel_other_row _ offset _ _ _ p hp (by omega),
          setPixel_in _ _ _ _ _ hp hb]
      · rw [setPixel_other_row _ offset _ _ _ p hp (by omega),
          setPixel_in _ _ _ _ _ hp hb]
      · rw [setPixel_in _ _ _ _ _ hp hb]
    · intro hq p hp
      have hsnow : 0 < f.PredictedSnow := lt_trans (by norm_num) hq
      have hb : inBounds p :=
        inCellBlock_bounds offset _ p hoff0 hoff1 (by omega) (by omega) hp
      simp only [futureBranch, if_pos hlevel, if_neg hnneg, if_pos hsnow,
        if_pos hq]
      apply setColumn_flake _ _ _ _ _ (futureColor_eq hr)
      split_ifs with hq3
      · rw [setPixel_other_row _ offset _ _ _ p hp (by omega),
          setPixel_in _ _ _ _ _ hp hb]
      · rw [setPixel_in _ _ _ _ _ hp hb]
    · intro hq p hp
      have hsnow : 0 < f.PredictedSnow := lt_trans (by norm_num) hq
      have hq2 : 1 / 4 < f.PredictedSnow := lt_trans (by norm_num) hq
      have hb : inBounds p :=
        inCellBlock_bounds offset _ p hoff0 hoff1 (by omega) (by omega) hp
      simp only [futureBranch, if_pos hlevel, if_neg hnneg, if_pos hsnow,
        if_pos hq, if_pos hq2]
      apply setColumn_flake _ _ _ _ _ (futureColor_eq hr)
      rw [setPixel_in _ _ _ _ _ hp hb]
  · intro hlevel
    have hlv : ¬ f.PredictedSnowLevel < snowlevel := not_lt.mpr hlevel
    refine ⟨?_, ?_⟩
    · simp only [futureBranch, if_neg hlv, if_neg hnneg]
    · intro hsnow p hp
      simp only [futureBranch, if_neg hlv, if_neg hnneg, if_pos hsnow]
      apply setColumn_flake _ _ _ _ _ (futureColor_eq hr)
      rcases hp with hp | hp
      · have hb : inBounds p :=
          inCellBlock_bounds offset _ p hoff0 hoff1 (by omega) (by omega) hp
        rw [setPixel_other_row _ offset _ _ _ p hp (by omega),
          setPixel_in _ _ _ _ _ hp hb]
      · have hb : inBounds p :=
          inCellBlock_bounds offset _ p hoff0 hoff1 (by omega) (by omega) hp
        rw [setPixel_in _ _ _ _ _ hp hb]

/-- Witness for futureBranch_snow_rain: a record with predicted snow 1 inch
and snow level 1000 (below the 1490 snow line) at column 2 adds 1 to the
total and paints pixel (40, 20) of the top flake marker cell. -/
theorem futureBranch_snow_rain_witness :
    (0 : ℤ) ≤ 2 ∧ (2 : ℤ) < 64 ∧ (0 : ℚ) ≤ 0 ∧ (1000 : ℚ) < snowlevel ∧
    (0 : ℚ) < 1 ∧ inCellBlock 2 (1 + Int.tmod 2 2 * 2) (40, 20) ∧
    (futureBranch
      { Hour := 0, PredictedSnow := 1, PredictedSnowLevel := 1000,
        PredictedTemp := 20, ActualSnow := 0, ActualTemp := 0,
        ActualPrecip := 0 } 2 20 makeImage 0).2 = 0 + 1 ∧
    (futureBranch
      { Hour := 0, PredictedSnow := 1, PredictedSnowLevel := 1000,
        PredictedTemp := 20, ActualSnow := 0, ActualTemp := 0,
        ActualPrecip := 0 } 2 20 makeImage 0).1 (40, 20) = flakeColor := by
  refine ⟨by decide, by decide, by decide, by decide, by decide, by decide, ?_, ?_⟩
  · exact ((futureBranch_snow_rain _ 2 20 makeImage 0 (by decide) (by decide)
      (by decide)).1 (by decide)).1
  · exact ((futureBranch_snow_rain _ 2 20 makeImage 0 (by decide) (by decide)
      (by decide)).1 (by decide)).2.1 (by decide) (40, 20) (by decide)

/-!  Lemmas for the past branch of the render walk. -/

theorem resetAt16_not16 (merged : Timeline) (now curr : ℤ)
    (total startDepth : ℚ) (h : hourOf curr ≠ 16) :
    resetAt16 merged now curr total startDepth = (total, startDepth) := by
  simp [resetAt16, h]

theorem pastBranch_state (f : HourForecast) (offset hr : ℤ) (img : Img)
    (total startDepth : ℚ) :
    (pastBranch f offset hr img total startDepth).2 =
      (max total (f.ActualSnow - min startDepth f.ActualSnow),
       min startDepth f.ActualSnow) := by
  have hmin : (if f.ActualSnow < startDepth then f.ActualSnow else startDepth)
      = min startDepth f.ActualSnow := by
    rcases lt_or_le f.ActualSnow startDepth with h | h
    · rw [if_pos h, min_eq_right (le_of_lt h)]
    · rw [if_neg (not_lt.mpr h), min_eq_left h]
  have hmax : (if total < f.ActualSnow - min startDepth f.ActualSnow
        then f.ActualSnow - min startDepth f.ActualSnow else total)
      = max total (f.ActualSnow - min startDepth f.ActualSnow) := by
    rcases lt_or_le total (f.ActualSnow - min startDepth f.ActualSnow) with h | h
    · rw [if_pos h, max_eq_right (le_of_lt h)]
    · rw [if_neg (not_lt.mpr h), max_eq_left h]
  simp only [pastBranch, hmin, hmax]

theorem hourStep_past (merged : Timeline) (now gs curr : ℤ) (st : WalkState)
    (h16 : hourOf curr ≠ 16) (hlt : curr < now) :
    (hourStep merged now gs curr st).total =
      (match merged curr with
       | none => st.total
       | some f => max st.total (f.ActualSnow - min st.startDepth f.ActualSnow)) ∧
    (hourStep merged now gs curr st).startDepth =
      (match merged curr with
       | none => st.startDepth
       | some f => min st.startDepth f.ActualSnow) := by
  have hnl : ¬ now ≤ curr := not_le.mpr hlt
  cases hm : merged curr with
  | none =>
    simp only [hourStep, resetAt16_not16 _ _ _ _ _ h16, hm]
    exact ⟨trivial, trivial⟩
  | some f =>
    simp only [hourStep, resetAt16_not16 _ _ _ _ _ h16, hm, if_neg hnl,
      pastBranch_state]
    exact ⟨trivial, trivial⟩

theorem hourStep_past_mono (merged : Timeline) (now gs curr : ℤ) (st : WalkState)
    (h16 : hourOf curr ≠ 16) (hlt : curr < now) :
    st.total ≤ (hourStep merged now gs curr st).total := by
  rw [(hourStep_past merged now gs curr st h16 hlt).1]
  cases hm : merged curr with
  | none => exact le_refl _
  | some f => exact le_max_left _ _

theorem walkHours_succ (merged : Timeline) (now gs : ℤ) : ∀ (n : ℕ) (curr : ℤ)
    (st : WalkState), walkHours merged now gs curr (n + 1) st =
      hourStep merged now gs (curr + 3600 * (n : ℤ))
        (walkHours merged now gs curr n st) := by
  intro n
  induction n with
  | zero => intro curr st; simp [walkHours]
  | succ k ih =>
    intro curr st
    rw [show walkHours merged now gs curr (k + 2) st =
      walkHours merged now gs (curr + 3600) (k + 1)
        (hourStep merged now gs curr st) from rfl]
    rw [ih]
    rw [show walkHours merged now gs curr (k + 1) st =
      walkHours merged now gs (curr + 3600) k
        (hourStep merged now gs curr st) from rfl]
    congr 1
    push_cast
    ring

theorem walkHours_startDepth (merged : Timeline) (now gs : ℤ) : ∀ (n : ℕ)
    (curr : ℤ) (st0 : WalkState),
    (∀ k : ℕ, k < n → curr + 3600 * (k : ℤ) < now) →
    (∀ k : ℕ, k < n → hourOf (curr + 3600 * (k : ℤ)) ≠ 16) →
    (walkHours merged now gs curr n st0).startDepth =
      (pastDepths merged curr n).foldl min st0.startDepth := by
  intro n
  induction n with
  | zero => intro curr st0 _ _; rfl
  | succ nn ih =>
    intro curr st0 hpast h16
    have h160 : hourOf curr ≠ 16 := by
      have := h16 0 (by omega); simpa using this
    have hlt0 : curr < now := by
      have := hpast 0 (by omega); simpa using this
    have hstep := (hourStep_past merged now gs curr st0 h160 hlt0).2
    rw [show walkHours merged now gs curr (nn + 1) st0 =
      walkHours merged now gs (curr + 3600) nn
        (hourStep merged now gs curr st0) from rfl]
    rw [ih (curr + 3600) (hourStep merged now gs curr st0)
      (fun k hk => by have := hpast (k + 1) (by omega); push_cast at this ⊢; omega)
      (fun k hk => by
        have := h16 (k + 1) (by omega)
        have he : curr + 3600 * ((k : ℤ) + 1) = curr + 3600 + 3600 * (k : ℤ) := by ring
        push_cast at this
        rw [he] at this
        exact this)]
    rw [hstep]
    cases hm : merged curr with
    | none =>
      rw [show pastDepths merged curr (nn + 1) =
        (match merged curr with
         | none => ([] : List ℚ)
         | some f => [f.ActualSnow]) ++ pastDepths merged (curr + 3600) nn from rfl]
      rw [hm]
      rfl
    | some f =>
      rw [show pastDepths merged curr (nn + 1) =
        (match merged curr with
         | none => ([] : List ℚ)
         | some f => [f.ActualSnow]) ++ pastDepths merged (curr + 3600) nn from rfl]
      rw [hm]
      rfl

/-- C3: over any stretch of the render walk that stays in the past branch
(every hour strictly before now) with no 16:00 reset inside, startDepth ends
as the running minimum of the initial baseline and every observed depth of a
present record, the total after each step with a present record equals the
maximum of the previous total and observed depth minus the updated baseline,
and the total never decreases from one step to the next, dips included. -/
theorem pastWalk_monotone_min (merged : Timeline) (now gs curr : ℤ) (n : ℕ)
    (st0 : WalkState)
    (hpast : ∀ k : ℕ, k < n → curr + 3600 * (k : ℤ) < now)
    (h16 : ∀ k : ℕ, k < n → hourOf (curr + 3600 * (k : ℤ)) ≠ 16) :
    ((walkHours merged now gs curr n st0).startDepth =
      (pastDepths merged curr n).foldl min st0.startDepth) ∧
    (∀ k : ℕ, k < n →
      (walkHours merged now gs curr k st0).total ≤
        (walkHours merged now gs curr (k + 1) st0).total) ∧
    (∀ k : ℕ, k < n → ∀ f, merged (curr + 3600 * (k : ℤ)) = some f →
      (walkHours merged now gs curr (k + 1) st0).total =
        max (walkHours merged now gs curr k st0).total
          (f.ActualSnow - (walkHours merged now gs curr (k + 1) st0).startDepth)) := by
  refine ⟨walkHours_startDepth merged now gs n curr st0 hpast h16, ?_, ?_⟩
  · intro k hk
    rw [walkHours_succ]
    exact hourStep_past_mono merged now gs (curr + 3600 * (k : ℤ))
      (walkHours merged now gs curr k st0) (h16 k hk) (hpast k hk)
  · intro k hk f hm
    rw [walkHours_succ,
      (hourStep_past merged now gs (curr + 3600 * (k : ℤ))
        (walkHours merged now gs curr k st0) (h16 k hk) (hpast k hk)).1,
      (hourStep_past merged now gs (curr + 3600 * (k : ℤ))
        (walkHours merged now gs curr k st0) (h16 k hk) (hpast k hk)).2,
      hm]

/-- Witness for pastWalk_monotone_min: two past hours at 11:00 and 12:00 with
observed depths 10 then a dip to 7, baseline 9: the theorem applies with two
steps. -/
theorem pastWalk_monotone_min_witness :
    (∀ k : ℕ, k < 2 → (39600 : ℤ) + 3600 * (k : ℤ) < 360000) ∧
    (∀ k : ℕ, k < 2 → hourOf ((39600 : ℤ) + 3600 * (k : ℤ)) ≠ 16) ∧
    ((walkHours mergedC3 360000 36000 39600 2 stC3).startDepth =
      (pastDepths mergedC3 39600 2).foldl min stC3.startDepth) ∧
    ((walkHours mergedC3 360000 36000 39600 1 stC3).total ≤
      (walkHours mergedC3 360000 36000 39600 2 stC3).total) := by
  refine ⟨by decide, by decide, ?_, ?_⟩
  · exact (pastWalk_monotone_min mergedC3 360000 36000 39600 2 stC3
      (by decide) (by decide)).1
  · exact (pastWalk_monotone_min mergedC3 360000 36000 39600 2 stC3
      (by decide) (by decide)).2.1 1 (by decide)
